import Mathlib

/-!
Verification development for the chunked remote-processing pipeline of the
`ai_transcribe` package (segmenter, retrying call executor, merger, result
cache, orchestrator).  Each Python function relevant to the checked claims is
shallowly embedded as an executable Lean definition; outbound I/O (the HTTP
transport, the audio libraries, the file system) is supplied as an explicit
environment value, so that one call of a Python function corresponds to one
evaluation of its Lean counterpart on an environment.
-/

namespace AiTranscribe

/-! ## Data model for API responses (utils/api_utils.py, ai_process/deepseek_client.py)

A parsed JSON response body is projected onto the fields the response parsers
inspect: the `choices` array (each element's `message.content`), the top-level
`text` field, and a flag recording whether the dictionary carries any other
keys (needed because Python branches on the truthiness of the dict). -/

/-- Projection of one element of the `choices` array: the value of
`choice['message']['content']` when both keys are present. -/
structure Choice where
  message_content : Option String
deriving Repr, DecidableEq

/-- Projection of a parsed JSON response dictionary.  `choices = none` means the
key is absent; `some l` means present with list `l`.  `otherKeys` records
whether the dictionary has keys besides `choices`/`text`. -/
structure RespData where
  choices : Option (List Choice)
  text : Option String
  otherKeys : Bool
deriving Repr, DecidableEq

/-- Python truthiness of the response dictionary: a dict is truthy iff it is
non-empty. -/
def RespData.truthy (r : RespData) : Bool :=
  r.choices.isSome || r.text.isSome || r.otherKeys

/-- Transport-level outcome of one attempt of `requests.request`:
an HTTP response with a status code, an optional parsed JSON body
(`none` models a `json.JSONDecodeError`) and the raw response text,
or one of the exception classes the executor catches. -/
inductive AttemptOutcome where
  | http (status : Nat) (jsonBody : Option RespData) (rawText : String)
  | timeout
  | connError
  | exc (msg : String)
deriving Repr, DecidableEq

/-- Result triple of `APIUtils.make_request`: `(success, response_data, error_message)`. -/
structure MRResult where
  success : Bool
  data : Option RespData
  error : Option String
deriving Repr, DecidableEq

namespace APIUtils

/-- The error message `f"HTTP {response.status_code}: {response.text}"`. -/
def httpErrorMsg (status : Nat) (body : String) : String :=
  "HTTP " ++ toString status ++ ": " ++ body

/-- On a 200 response whose body is not JSON, `make_request` wraps the raw text
as the dictionary with the single key `text`. -/
def wrapRaw (s : String) : RespData := ⟨none, some s, false⟩

/-- The message `f"请求超时 ({timeout}s)"`. -/
def timeoutMsg (timeoutSec : Nat) : String :=
  "请求超时 (" ++ toString timeoutSec ++ "s)"

/-- Loop body of `APIUtils.make_request` (api_utils.py lines 43-101).
`attempt` is the 0-based attempt counter, `fuel` the number of iterations the
`for attempt in range(max_retries)` loop still has (`fuel = max_retries -
attempt`); the second component collects the delays passed to `time.sleep`,
each `retry_delay * (2 ** attempt)`.  Delays are exact in rationals: Python
multiplies a float by a power of two, which is exact. -/
def make_request_go (env : Nat → AttemptOutcome) (timeoutSec : Nat)
    (retry_delay : ℚ) (max_retries : Nat) : Nat → Nat → MRResult × List ℚ
  | _, 0 => (⟨false, none, some "请求失败"⟩, [])
  | attempt, fuel + 1 =>
    match env attempt with
    | .http status jsonBody rawText =>
      if status == 200 then
        match jsonBody with
        | some j => (⟨true, some j, none⟩, [])
        | none => (⟨true, some (wrapRaw rawText), none⟩, [])
      else
        let msg := httpErrorMsg status rawText
        if 400 ≤ status ∧ status < 500 then (⟨false, none, some msg⟩, [])
        else if attempt == max_retries - 1 then (⟨false, none, some msg⟩, [])
        else
          let rest := make_request_go env timeoutSec retry_delay max_retries (attempt + 1) fuel
          (rest.1, retry_delay * 2 ^ attempt :: rest.2)
    | .timeout =>
      if attempt == max_retries - 1 then (⟨false, none, some (timeoutMsg timeoutSec)⟩, [])
      else
        let rest := make_request_go env timeoutSec retry_delay max_retries (attempt + 1) fuel
        (rest.1, retry_delay * 2 ^ attempt :: rest.2)
    | .connError =>
      if attempt == max_retries - 1 then (⟨false, none, some "网络连接错误"⟩, [])
      else
        let rest := make_request_go env timeoutSec retry_delay max_retries (attempt + 1) fuel
        (rest.1, retry_delay * 2 ^ attempt :: rest.2)
    | .exc m =>
      if attempt == max_retries - 1 then (⟨false, none, some ("请求异常: " ++ m)⟩, [])
      else
        let rest := make_request_go env timeoutSec retry_delay max_retries (attempt + 1) fuel
        (rest.1, retry_delay * 2 ^ attempt :: rest.2)

/-- `APIUtils.make_request` (method/url/headers do not affect the control flow
and are omitted): returns the `(success, response_data, error_message)` triple
together with the list of backoff delays slept, in order. -/
def make_request (env : Nat → AttemptOutcome) (timeoutSec : Nat)
    (max_retries : Nat) (retry_delay : ℚ) : MRResult × List ℚ :=
  make_request_go env timeoutSec retry_delay max_retries 0 max_retries

/-- An attempt outcome the executor retries: timeout, connection error, any
other request exception, or an HTTP status that is neither 200 nor a 4xx. -/
def isTransient : AttemptOutcome → Bool
  | .http status _ _ =>
    if status == 200 then false
    else if 400 ≤ status ∧ status < 500 then false
    else true
  | .timeout => true
  | .connError => true
  | .exc _ => true

/-- The fixed set of sentence-ending characters in `chunk_text`. -/
def sentenceEnders : List Char := ['.', '!', '?', '。', '！', '？']

/-- Membership test `text[i] in '.!?。！？'`. -/
def isSentenceEnd (c : Char) : Bool := sentenceEnders.contains c

/-- The backward scan `for i in range(end, start + max_length - overlap, -1)`:
starting at index `i` and visiting `steps` indices downward, return the first
index holding a sentence ender, if any.  Indices are always in range in the
regimes proved about; out-of-range reads default to a non-ender. -/
def scanBack (text : List Char) : Nat → Nat → Option Nat
  | _, 0 => none
  | i, steps + 1 =>
    if isSentenceEnd (text.getD i ' ') then some i else scanBack text (i - 1) steps

/-- Loop body of `APIUtils.chunk_text` (api_utils.py lines 143-158), texts as
codepoint lists.  `fuel` bounds the number of iterations of the Python `while`
loop; `chunk_text` supplies enough fuel whenever the cut position strictly
advances, which holds in every regime proved about. -/
def chunk_text_go (text : List Char) (max_length overlap : Nat) :
    Nat → Nat → List (List Char)
  | _, 0 => []
  | start, fuel + 1 =>
    if start < text.length then
      if text.length ≤ start + max_length then
        [text.drop start]
      else
        let e :=
          match scanBack text (start + max_length) overlap with
          | some i => i + 1
          | none => start + max_length
        (text.drop start).take (e - start) ::
          chunk_text_go text max_length overlap (e - overlap) fuel
    else []

/-- `APIUtils.chunk_text(text, max_length, overlap)` (api_utils.py lines 135-160). -/
def chunk_text (text : List Char) (max_length overlap : Nat) : List (List Char) :=
  if text.length ≤ max_length then [text]
  else chunk_text_go text max_length overlap 0 (text.length + 1)

end APIUtils

/-! ## ai_process/deepseek_client.py -/

namespace DeepSeekClient

/-- `DeepSeekClient._extract_response_text` (deepseek_client.py lines 180-198):
first `choices[0]['message']['content']`, else the top-level `text` field,
each stripped of surrounding whitespace. -/
def extract_response_text (rd : RespData) : Option String :=
  match rd.choices with
  | some (c :: _) =>
    match c.message_content with
    | some content => some content.trim
    | none => rd.text.map (fun t => t.trim)
  | _ => rd.text.map (fun t => t.trim)

/-- `DeepSeekClient._process_single_text` (deepseek_client.py lines 67-127):
one `make_request` call with `timeout=60` and the defaults `max_retries=3`,
`retry_delay=1.0`, followed by response extraction.  Message construction does
not affect the result and is omitted.  Returns
`(success, processed_text, error_message)`. -/
def process_single_text (env : Nat → AttemptOutcome) :
    Bool × Option String × Option String :=
  let res := (APIUtils.make_request env 60 3 1).1
  match res.success, res.data with
  | true, some rd =>
    if rd.truthy then
      match extract_response_text rd with
      | some t =>
        if t = "" then (false, none, some "API响应格式异常")
        else (true, some t, none)
      | none => (false, none, some "API响应格式异常")
    else (false, none, some (res.error.getD "API调用失败"))
  | _, _ => (false, none, some ((APIUtils.make_request env 60 3 1).1.error.getD "API调用失败"))

/-- Whether a `(success, processed_chunk, error)` triple counts as a failed
chunk in `_process_text_chunks`: Python tests `if success and processed_chunk`,
so a missing or empty result string also counts as failure. -/
def chunkFailed (r : Bool × Option String × Option String) : Bool :=
  match r with
  | (true, some s, _) => s == ""
  | _ => true

/-- The substitute text `f"[处理失败，原文本] {chunk}"` appended for a failed chunk. -/
def fallbackText (chunk : List Char) : String :=
  "[处理失败，原文本] " ++ String.mk chunk

/-- The `for i, chunk in enumerate(chunks)` loop of `_process_text_chunks`
(deepseek_client.py lines 144-160): returns the accumulated `processed_chunks`
list and the `failed_chunks` counter.  `call i chunk` is the outcome of the
`_process_single_text` call for chunk `i` (an environment value: each chunk's
call is one outbound operation). -/
def process_chunks_go (call : Nat → List Char → Bool × Option String × Option String) :
    Nat → List (List Char) → List String × Nat
  | _, [] => ([], 0)
  | i, c :: rest =>
    let r := call i c
    let acc := process_chunks_go call (i + 1) rest
    match r with
    | (true, some s, _) =>
      if s = "" then (fallbackText c :: acc.1, acc.2 + 1)
      else (s :: acc.1, acc.2)
    | _ => (fallbackText c :: acc.1, acc.2 + 1)

/-- The warning message `f"注意：有 {failed_chunks} 个文本块处理失败"`. -/
def chunkWarning (failed : Nat) : String :=
  "注意：有 " ++ toString failed ++ " 个文本块处理失败"

/-- `DeepSeekClient._process_text_chunks` (deepseek_client.py lines 129-178):
chunk the text with `max_length=2000, overlap=200`, process each chunk,
substitute the original text for failed chunks, and merge with a double
newline. -/
def process_text_chunks (text : List Char)
    (call : Nat → List Char → Bool × Option String × Option String) :
    Bool × Option String × Option String :=
  let chunks := APIUtils.chunk_text text 2000 200
  let acc := process_chunks_go call 0 chunks
  if acc.1 = [] then (false, none, some "所有文本块处理都失败了")
  else
    let merged := String.intercalate "\n\n" acc.1
    if 0 < acc.2 then (true, some merged, some (chunkWarning acc.2))
    else (true, some merged, none)

end DeepSeekClient

/-! ## transcribe/segment_processor.py -/

namespace SegmentProcessor

/-- The `for` loop of `SegmentProcessor.merge_transcripts` (segment_processor.py
lines 358-363): collect the stripped texts of the successful results (Python
tests `if success and text`, so an absent or empty text counts as failure) and
count the failures. -/
def merge_go : List (Bool × Option String × Option String) → List String × Nat
  | [] => ([], 0)
  | r :: rest =>
    let acc := merge_go rest
    match r with
    | (true, some t, _) =>
      if t = "" then (acc.1, acc.2 + 1)
      else (t.trim :: acc.1, acc.2)
    | _ => (acc.1, acc.2 + 1)

/-- The warning message `f"注意：有 {failed_count} 个音频片段转录失败"`. -/
def mergeWarning (failed : Nat) : String :=
  "注意：有 " ++ toString failed ++ " 个音频片段转录失败"

/-- `SegmentProcessor.merge_transcripts` (segment_processor.py lines 352-381). -/
def merge_transcripts (results : List (Bool × Option String × Option String)) :
    Bool × Option String × Option String :=
  let acc := merge_go results
  if acc.1 = [] then (false, none, some "所有音频片段转录都失败了")
  else
    let merged := String.intercalate "\n" acc.1
    if 0 < acc.2 then (true, some merged, some (mergeWarning acc.2))
    else (true, some merged, none)

/-- Environment of one `split_audio` call: the artifact and the observable
results of the platform collaborators it consults.  `duration` is the result of
the `_get_audio_duration` cascade (iOS framework, Python libraries, size-based
estimate); `ios_segments` and `python_segments` are the segment lists the two
splitting strategies produce (empty on `ImportError` or failure); `copy_ok i`
is whether `FileUtils.copy_file` succeeds for chunk `i` of the size-based
fallback.  `chunk_duration` is `config transcribe.chunk_duration_seconds`
(default 60). -/
structure AudioEnv where
  audio_path : String
  file_ok : Bool
  file_size_mb : ℚ
  duration : Option ℚ
  ios_segments : List String
  python_segments : List String
  copy_ok : Nat → Bool
  chunk_duration : ℚ

/-- `SegmentProcessor._split_by_file_size` (segment_processor.py lines 316-350):
returns a PAIR `(success, segments)` — notably not the triple the callers of
`split_audio` unpack.  Chunk paths are abstracted as the source path tagged
with the chunk index. -/
def split_by_file_size (env : AudioEnv) : Bool × List String :=
  if env.file_size_mb ≤ 25 then (true, [env.audio_path])
  else
    let num_chunks := ⌈env.file_size_mb / 25⌉₊
    let segs := (List.range num_chunks).filterMap fun i =>
      if env.copy_ok i then some (env.audio_path ++ "_chunk_" ++ toString i) else none
    (true, segs)

/-- `SegmentProcessor._perform_audio_split` (segment_processor.py lines
168-187): iOS strategy, then the Python strategy, then the second component of
the size-based fallback. -/
def perform_audio_split (env : AudioEnv) : List String :=
  if env.ios_segments ≠ [] then env.ios_segments
  else if env.python_segments ≠ [] then env.python_segments
  else (split_by_file_size env).2

/-- The value returned by `split_audio`: the annotated triple
`(success, segment_paths, error_message)`, or — on the unknown-duration path,
which returns `_split_by_file_size`'s result directly — a bare pair. -/
inductive SplitResult where
  | triple (success : Bool) (segments : List String) (error : Option String)
  | pair (success : Bool) (segments : List String)
deriving Repr, DecidableEq

/-- The `success` flag carried by either form of `SplitResult`. -/
def SplitResult.ok : SplitResult → Bool
  | .triple s _ _ => s
  | .pair s _ => s

/-- The segment list carried by either form of `SplitResult`. -/
def SplitResult.segments : SplitResult → List String
  | .triple _ segs _ => segs
  | .pair _ segs => segs

/-- `SegmentProcessor.split_audio` (segment_processor.py lines 23-71).  The
`num_segments = ceil(duration / chunk_duration)` computation only parametrizes
the strategy oracles and is not recomputed here. -/
def split_audio (env : AudioEnv) : SplitResult :=
  if env.file_ok = false then .triple false [] (some "音频文件不存在")
  else
    match env.duration with
    | none => .pair (split_by_file_size env).1 (split_by_file_size env).2
    | some d =>
      if d ≤ env.chunk_duration then .triple true [env.audio_path] none
      else
        let segs := perform_audio_split env
        if segs ≠ [] then .triple true segs none
        else .triple false [] (some "音频分割失败")

end SegmentProcessor

/-! ## utils/cache.py

The two tiers are modelled as finite maps from keys to entries; `md5` key
hashing is deterministic and injective on the keys in play, so the stores are
keyed by the raw key string. -/

/-- One cache record: the stored value and its creation timestamp. -/
structure CacheEntry where
  value : String
  timestamp : ℚ
deriving Repr, DecidableEq

/-- State of the `Cache` object: the enabled flag, the TTL in hours, the
in-memory tier (`memory_cache` dict) and the durable tier (the `.cache` files),
each a map from key to entry. -/
structure CacheState where
  enabled : Bool
  ttl_hours : ℚ
  memory : String → Option CacheEntry
  files : String → Option CacheEntry

/-- `Cache._is_expired`: `time.time() - timestamp > self.ttl_hours * 3600`. -/
def is_expired (st : CacheState) (now timestamp : ℚ) : Bool :=
  decide (st.ttl_hours * 3600 < now - timestamp)

/-- Removal of a key from one tier (dict `del` / `os.remove`). -/
def mapErase (m : String → Option CacheEntry) (key : String) :
    String → Option CacheEntry :=
  fun k => if k = key then none else m k

/-- Insertion into one tier (dict assignment / file write). -/
def mapSet (m : String → Option CacheEntry) (key : String) (e : CacheEntry) :
    String → Option CacheEntry :=
  fun k => if k = key then some e else m k

namespace Cache

/-- The file-tier half of `Cache.get` (cache.py lines 115-139): consult the
durable tier, repopulate the memory tier on a fresh hit, remove the file on an
expired hit. -/
def getFile (st : CacheState) (now : ℚ) (key : String) :
    Option String × CacheState :=
  match st.files key with
  | some e =>
    if is_expired st now e.timestamp = false then
      (some e.value, { st with memory := mapSet st.memory key e })
    else
      (none, { st with files := mapErase st.files key })
  | none => (none, st)

/-- `Cache.get` (cache.py lines 98-139): memory tier first (dropping an expired
memory entry), then the durable tier.  Returns the result together with the
state after the read's side effects. -/
def get (st : CacheState) (now : ℚ) (key : String) :
    Option String × CacheState :=
  if st.enabled = false then (none, st)
  else
    match st.memory key with
    | some e =>
      if is_expired st now e.timestamp = false then (some e.value, st)
      else getFile { st with memory := mapErase st.memory key } now key
    | none => getFile st now key

end Cache

/-! ## transcribe/transcriber.py

`Transcriber.transcribe` is modelled as a function from an environment (the
observable results of the collaborators it consults) to its result triple
paired with the trace of fractions passed to `progress_callback`, in call
order.  The callback messages do not affect the claims and are omitted from
the trace.  Python float literals such as `0.1` are modelled as the rationals
they denote; their relative order is the same. -/

/-- Environment of one `Transcriber.transcribe` call: file existence, the
cached result (`some` only for a truthy cached string), the `_should_split_audio`
decision, the `transcribe_audio` outcome on the single-file path, the
`split_audio` outcome together with the fractions split emits through the
shared callback, the message of the exception raised when unpacking a
`SplitResult.pair` as a triple, and the per-segment `transcribe_audio`
outcomes. -/
structure TransEnv where
  file_ok : Bool
  cached : Option String
  should_split : Bool
  single_result : Bool × Option String × Option String
  split_outcome : SegmentProcessor.SplitResult
  split_trace : List ℚ
  exc_msg : String
  seg_results : Nat → Bool × Option String × Option String

namespace Transcriber

/-- `Transcriber._transcribe_single_file` (transcriber.py lines 191-215):
emits 0.3 before the call and 0.9 on success or 0.3 again on failure. -/
def transcribe_single_file (env : TransEnv) :
    (Bool × Option String × Option String) × List ℚ :=
  let r := env.single_result
  (r, [(0.3 : ℚ), if r.1 then (0.9 : ℚ) else 0.3])

/-- `Transcriber._transcribe_with_segments` (transcriber.py lines 217-281):
emits 0.3, then whatever `split_audio` emits through the shared callback.
Unpacking the 2-tuple returned by `split_audio`'s unknown-duration path raises
a `ValueError` which the surrounding handler converts into a failure triple.
Otherwise: per-segment fractions `0.4 + (i / n) * 0.5`, then 0.9, then the
merge. -/
def transcribe_with_segments (env : TransEnv) :
    (Bool × Option String × Option String) × List ℚ :=
  match env.split_outcome with
  | .pair _ _ =>
    ((false, none, some ("分段转录错误: " ++ env.exc_msg)), 0.3 :: env.split_trace)
  | .triple ok segs err =>
    if ok = false ∨ segs = [] then
      ((false, none, some (err.getD "音频分割失败")), 0.3 :: env.split_trace)
    else
      let n := segs.length
      let results := (List.range n).map env.seg_results
      let segTrace := (List.range n).map fun i =>
        (0.4 : ℚ) + ((i : ℚ) / (n : ℚ)) * 0.5
      (SegmentProcessor.merge_transcripts results,
        0.3 :: env.split_trace ++ (0.4 : ℚ) :: segTrace ++ [(0.9 : ℚ)])

/-- `Transcriber.transcribe` (transcriber.py lines 26-99): initial 0.0, file
check, cache lookup (1.0 on a hit), 0.1 and 0.2, the single-file or segmented
path, and the final 1.0 on success or 0.0 on failure. -/
def transcribe (env : TransEnv) :
    (Bool × Option String × Option String) × List ℚ :=
  if env.file_ok = false then ((false, none, some "音频文件不存在"), [(0 : ℚ)])
  else
    match env.cached with
    | some t => ((true, some t, none), [(0 : ℚ), 1])
    | none =>
      let br :=
        if env.should_split then transcribe_with_segments env
        else transcribe_single_file env
      (br.1, ((0 : ℚ) :: (0.1 : ℚ) :: (0.2 : ℚ) :: br.2) ++
        [if br.1.1 then (1 : ℚ) else 0])

end Transcriber

/-! ## Concrete inputs used by counterexamples and witnesses -/

/-- Transport environment whose first attempt is a 200 response with a
non-empty JSON dictionary the parser does not recognize, and whose later
attempts would return a well-formed result. -/
def c2CounterEnv : Nat → AttemptOutcome := fun n =>
  if n = 0 then .http 200 (some ⟨none, none, true⟩) "ignored"
  else .http 200 (some ⟨some [⟨some "recovered"⟩], none, false⟩) "ignored"

/-- A large existing audio artifact (30 MB, 120 s) for which every splitting
strategy produces no segments and every fallback copy fails. -/
def c3CounterEnv : SegmentProcessor.AudioEnv :=
  { audio_path := "a.wav", file_ok := true, file_size_mb := 30,
    duration := some 120, ios_segments := [], python_segments := [],
    copy_ok := fun _ => false, chunk_duration := 60 }

/-- A small existing audio artifact (10 MB) with unknown duration and no
working splitting strategy. -/
def c3SmallEnv : SegmentProcessor.AudioEnv :=
  { audio_path := "b.wav", file_ok := true, file_size_mb := 10,
    duration := none, ios_segments := [], python_segments := [],
    copy_ok := fun _ => true, chunk_duration := 60 }

/-- A 17-character text whose index 10 holds a sentence ender. -/
def c7Text : List Char := "aaaaaaaaaa.aaaaaa".toList

/-- A transcription run environment: existing file, cache miss, single-file
path, failing remote call. -/
def c9CounterEnv : TransEnv :=
  { file_ok := true, cached := none, should_split := false,
    single_result := (false, none, some "API调用失败"),
    split_outcome := .triple true ["s"] none, split_trace := [],
    exc_msg := "", seg_results := fun _ => (false, none, none) }

/-- A transcription run environment for a successful single-file run. -/
def c9SuccessEnv : TransEnv :=
  { file_ok := true, cached := none, should_split := false,
    single_result := (true, some "text", none),
    split_outcome := .triple true ["s"] none, split_trace := [],
    exc_msg := "", seg_results := fun _ => (true, some "t", none) }

/-- A 2500-character text, long enough that `chunk_text` with
`max_length=2000, overlap=200` cannot return a single chunk. -/
def c4Text : List Char := List.replicate 2500 'a'

/-- A per-chunk call oracle where chunk 0 succeeds and every other chunk fails. -/
def c4Call : Nat → List Char → Bool × Option String × Option String :=
  fun i _ => if i = 0 then (true, some "OK", none) else (false, none, some "HTTP 500: boom")

/-- Transport environment whose first attempt times out and whose second
attempt is a 404 response. -/
def c6WitnessEnv : Nat → AttemptOutcome := fun n =>
  if n = 0 then .timeout else .http 404 none "nf"

/-- A cache entry created at time 0. -/
def c8Entry : CacheEntry := ⟨"v", 0⟩

/-- A cache state with TTL one hour and the key `k` present in both tiers
with an entry created at time 0. -/
def c8State : CacheState :=
  { enabled := true, ttl_hours := 1,
    memory := fun k => if k = "k" then some c8Entry else none,
    files := fun k => if k = "k" then some c8Entry else none }

/-- The number of failed chunks among the chunk indices, counted with the
same success test as the processing loop. -/
def failedCount (call : Nat → List Char → Bool × Option String × Option String)
    (chunks : List (List Char)) : Nat :=
  ((List.range chunks.length).filter fun k =>
    DeepSeekClient.chunkFailed (call k (chunks.getD k []))).length

/-! ## Helper lemmas -/

/-- Reading a position inside a mapped range list. -/
theorem getD_map_range (f : Nat → ℚ) (n i : Nat) (dflt : ℚ) (h : i < n) :
    (((List.range n).map f).getD i dflt) = f i := by
  rw [List.getD_eq_getElem?_getD, List.getElem?_map, List.getElem?_range h]
  rfl

/-- One non-final step of the retry loop on a transient outcome either stops
(when the attempt is the last) or sleeps `retry_delay * 2 ^ attempt` and
recurses. -/
theorem make_request_go_step (env : Nat → AttemptOutcome) (T : Nat) (d : ℚ)
    (max_retries attempt fuel : Nat)
    (h : APIUtils.isTransient (env attempt) = true) :
    (APIUtils.make_request_go env T d max_retries attempt (fuel + 1)).2 =
      if (attempt == max_retries - 1) = true then []
      else d * 2 ^ attempt ::
        (APIUtils.make_request_go env T d max_retries (attempt + 1) fuel).2 := by
  cases henv : env attempt with
  | http status jsonBody rawText =>
    rw [henv] at h
    simp only [APIUtils.isTransient] at h
    split_ifs at h with h1 h2
    simp only [APIUtils.make_request_go, henv, if_neg h1, if_neg h2]
    split <;> simp
  | timeout =>
    simp only [APIUtils.make_request_go, henv]
    split <;> simp
  | connError =>
    simp only [APIUtils.make_request_go, henv]
    split <;> simp
  | exc m =>
    simp only [APIUtils.make_request_go, henv]
    split <;> simp

/-- If the current attempt's outcome is not transient, the loop returns from
this attempt without any sleep. -/
theorem make_request_go_no_sleep_of_nontransient (env : Nat → AttemptOutcome)
    (T : Nat) (d : ℚ) (max_retries attempt fuel : Nat)
    (h : APIUtils.isTransient (env attempt) = false) :
    (APIUtils.make_request_go env T d max_retries attempt (fuel + 1)).2 = [] := by
  cases henv : env attempt with
  | http status jsonBody rawText =>
    rw [henv] at h
    simp only [APIUtils.isTransient] at h
    split_ifs at h with h1 h2
    · cases jsonBody <;> simp [APIUtils.make_request_go, henv, h1]
    · have hne : ¬ status = 200 := by simpa using h1
      simp [APIUtils.make_request_go, henv, hne, h2]
  | timeout => rw [henv] at h; exact absurd h (by simp [APIUtils.isTransient])
  | connError => rw [henv] at h; exact absurd h (by simp [APIUtils.isTransient])
  | exc m2 => rw [henv] at h; exact absurd h (by simp [APIUtils.isTransient])

/-- One non-final retry-loop step on a transient outcome, as an equation on
the whole result pair: the loop sleeps `retry_delay * 2 ^ attempt` and
continues with the next attempt. -/
theorem make_request_go_step_full (env : Nat → AttemptOutcome) (T : Nat) (d : ℚ)
    (max_retries attempt fuel : Nat)
    (h : APIUtils.isTransient (env attempt) = true)
    (hne : (attempt == max_retries - 1) = false) :
    APIUtils.make_request_go env T d max_retries attempt (fuel + 1)
      = ((APIUtils.make_request_go env T d max_retries (attempt + 1) fuel).1,
         d * 2 ^ attempt ::
           (APIUtils.make_request_go env T d max_retries (attempt + 1) fuel).2) := by
  cases henv : env attempt with
  | http status jsonBody rawText =>
    rw [henv] at h
    simp only [APIUtils.isTransient] at h
    split_ifs at h with h1 h2
    simp only [APIUtils.make_request_go, henv, if_neg h1, if_neg h2]
    rw [if_neg (by simp [hne])]
  | timeout =>
    simp only [APIUtils.make_request_go, henv]
    rw [if_neg (by simp [hne])]
  | connError =>
    simp only [APIUtils.make_request_go, henv]
    rw [if_neg (by simp [hne])]
  | exc m =>
    simp only [APIUtils.make_request_go, henv]
    rw [if_neg (by simp [hne])]

/-- A 4xx outcome at the current attempt makes the loop return that attempt's
error right away, with no sleep, regardless of the remaining attempt budget. -/
theorem make_request_go_4xx_now (env : Nat → AttemptOutcome) (T : Nat) (d : ℚ)
    (max_retries attempt fuel status : Nat) (jsonBody : Option RespData)
    (rawText : String)
    (henv : env attempt = .http status jsonBody rawText)
    (h400 : 400 ≤ status) (h500 : status < 500) :
    APIUtils.make_request_go env T d max_retries attempt (fuel + 1)
      = (⟨false, none, some (APIUtils.httpErrorMsg status rawText)⟩, []) := by
  have hne : ¬ status = 200 := by omega
  simp [APIUtils.make_request_go, henv, hne, h400, h500]

/-- Prepending the current backoff delay to the shifted delay trace gives the
delay trace of one more attempt. -/
theorem backoff_range_cons (d : ℚ) (attempt a : Nat) :
    d * 2 ^ attempt :: (List.range a).map (fun k => d * 2 ^ (attempt + 1 + k))
      = (List.range (a + 1)).map (fun k => d * 2 ^ (attempt + k)) := by
  rw [List.range_succ_eq_map]
  have hfg : (fun k => d * 2 ^ (attempt + 1 + k))
      = ((fun k => d * 2 ^ (attempt + k)) ∘ Nat.succ) := by
    funext k
    simp only [Function.comp_apply, Nat.succ_eq_add_one]
    rw [show attempt + 1 + k = attempt + (k + 1) from by omega]
  simp only [List.map_cons, List.map_map, Nat.add_zero, hfg]

/-- Behavior of the retry loop when a 4xx outcome arrives after `a` transient
attempts: the loop returns the 4xx attempt's failure, having slept exactly the
`a` backoff delays that preceded it — so the 4xx attempt itself triggers no
sleep and no later attempt is consulted. -/
theorem make_request_go_4xx (env : Nat → AttemptOutcome) (T : Nat) (d : ℚ)
    (max_retries : Nat) :
    ∀ a attempt fuel, attempt + fuel = max_retries → a < fuel →
    (∀ k, k < a → APIUtils.isTransient (env (attempt + k)) = true) →
    ∀ status jsonBody rawText,
    env (attempt + a) = .http status jsonBody rawText →
    400 ≤ status → status < 500 →
    APIUtils.make_request_go env T d max_retries attempt fuel
      = (⟨false, none, some (APIUtils.httpErrorMsg status rawText)⟩,
         (List.range a).map (fun k => d * 2 ^ (attempt + k))) := by
  intro a
  induction a with
  | zero =>
    intro attempt fuel hsum hlt htr status jsonBody rawText henv h400 h500
    obtain ⟨f, rfl⟩ : ∃ f, fuel = f + 1 := ⟨fuel - 1, by omega⟩
    rw [Nat.add_zero] at henv
    rw [make_request_go_4xx_now env T d max_retries attempt f status jsonBody
      rawText henv h400 h500]
    simp
  | succ a ih =>
    intro attempt fuel hsum hlt htr status jsonBody rawText henv h400 h500
    obtain ⟨f, rfl⟩ : ∃ f, fuel = f + 1 := ⟨fuel - 1, by omega⟩
    have h0 : APIUtils.isTransient (env attempt) = true := by
      have := htr 0 (by omega)
      simpa using this
    have hne : (attempt == max_retries - 1) = false := by
      have : attempt ≠ max_retries - 1 := by omega
      simpa using this
    rw [make_request_go_step_full env T d max_retries attempt f h0 hne]
    rw [ih (attempt + 1) f (by omega) (by omega)
      (fun k hk => by
        have := htr (k + 1) (by omega)
        have harg : attempt + 1 + k = attempt + (k + 1) := by omega
        rw [harg]
        exact this)
      status jsonBody rawText
      (by
        have harg : attempt + 1 + a = attempt + (a + 1) := by omega
        rw [harg]
        exact henv) h400 h500]
    rw [backoff_range_cons]

/-- Every slept backoff delay corresponds to a transient outcome: if the delay
trace has an entry at position `i`, then attempt `i`'s outcome was transient. -/
theorem make_request_go_sleep_transient (env : Nat → AttemptOutcome) (T : Nat)
    (d : ℚ) (max_retries : Nat) :
    ∀ fuel attempt i,
      i < (APIUtils.make_request_go env T d max_retries attempt fuel).2.length →
      APIUtils.isTransient (env (attempt + i)) = true := by
  intro fuel
  induction fuel with
  | zero => intro attempt i hi; simp [APIUtils.make_request_go] at hi
  | succ fuel ih =>
    intro attempt i hi
    by_cases htr : APIUtils.isTransient (env attempt) = true
    · rw [make_request_go_step env T d max_retries attempt fuel htr] at hi
      by_cases hl : (attempt == max_retries - 1) = true
      · rw [if_pos hl] at hi
        simp at hi
      · rw [if_neg hl] at hi
        cases i with
        | zero => simpa using htr
        | succ i =>
          simp only [List.length_cons] at hi
          have := ih (attempt + 1) i (by omega)
          have harg : attempt + 1 + i = attempt + (i + 1) := by omega
          rw [harg] at this
          exact this
    · have hfalse : APIUtils.isTransient (env attempt) = false := by
        simpa using htr
      rw [make_request_go_no_sleep_of_nontransient env T d max_retries attempt
        fuel hfalse] at hi
      simp at hi

/-- Delay trace of the retry loop when every remaining attempt is transient:
one sleep of `retry_delay * 2 ^ attempt` per non-final attempt. -/
theorem make_request_go_delays (env : Nat → AttemptOutcome) (T : Nat) (d : ℚ)
    (max_retries : Nat) :
    ∀ fuel attempt, attempt + fuel = max_retries →
    (∀ k, k < fuel → APIUtils.isTransient (env (attempt + k)) = true) →
    (APIUtils.make_request_go env T d max_retries attempt fuel).2
      = (List.range (fuel - 1)).map (fun a => d * 2 ^ (attempt + a)) := by
  intro fuel
  induction fuel with
  | zero => intro attempt _ _; rfl
  | succ fuel ih =>
    intro attempt hsum htr
    have h0 : APIUtils.isTransient (env attempt) = true := by
      have := htr 0 (Nat.succ_pos fuel)
      simpa using this
    rw [make_request_go_step env T d max_retries attempt fuel h0]
    cases fuel with
    | zero =>
      have : attempt = max_retries - 1 := by omega
      simp [this]
    | succ f =>
      have hne : (attempt == max_retries - 1) = false := by
        have : attempt ≠ max_retries - 1 := by omega
        simpa using this
      rw [hne, if_neg Bool.false_ne_true]
      rw [ih (attempt + 1) (by omega) (fun k hk => by
        have := htr (k + 1) (by omega)
        have harg : attempt + 1 + k = attempt + (k + 1) := by omega
        rw [harg]
        exact this)]
      rw [show f + 1 + 1 - 1 = f + 1 from rfl, List.range_succ_eq_map]
      have hfg : (fun a => d * 2 ^ (attempt + 1 + a))
          = ((fun a => d * 2 ^ (attempt + a)) ∘ Nat.succ) := by
        funext a
        simp only [Function.comp_apply, Nat.succ_eq_add_one]
        rw [show attempt + 1 + a = attempt + (a + 1) from by omega]
      simp only [List.map_cons, List.map_map, Nat.add_zero, hfg, Nat.add_sub_cancel]

/-- Position bounds of a successful backward boundary scan. -/
theorem scanBack_bounds (text : List Char) :
    ∀ steps i j, APIUtils.scanBack text i steps = some j → j ≤ i ∧ i < j + steps := by
  intro steps
  induction steps with
  | zero => intro i j h; simp [APIUtils.scanBack] at h
  | succ steps ih =>
    intro i j h
    rw [APIUtils.scanBack] at h
    split_ifs at h with hc
    · simp only [Option.some.injEq] at h
      omega
    · have := ih (i - 1) j h
      omega

/-- Characterization of the cut loop: under positive overlap smaller than the
segment size and a boundary-search window that cannot move the cut backward
past the next start (`2 * O ≤ S + 1`), the produced chunks are the slices of
a list of bounds that starts at `start`, ends at the end of the text, chains
with step `end - O`, covers every position, and keeps every slice between
`O` and `S + 1` characters wide. -/
theorem chunk_text_go_spec (text : List Char) (S O : Nat)
    (hO : 0 < O) (hOS : O < S) (hSO : 2 * O ≤ S + 1) :
    ∀ fuel start, start < text.length → text.length ≤ start + fuel →
      start + O ≤ text.length →
    ∃ bs : List (Nat × Nat),
      APIUtils.chunk_text_go text S O start fuel
        = bs.map (fun p => (text.drop p.1).take (p.2 - p.1)) ∧
      bs ≠ [] ∧
      (bs.getD 0 (0, 0)).1 = start ∧
      (bs.getD (bs.length - 1) (0, 0)).2 = text.length ∧
      (∀ k, k + 1 < bs.length →
        (bs.getD (k + 1) (0, 0)).1 + O = (bs.getD k (0, 0)).2) ∧
      (∀ p ∈ bs, start ≤ p.1 ∧ p.1 + O ≤ p.2 ∧ p.2 ≤ text.length ∧ p.2 ≤ p.1 + (S + 1)) ∧
      (∀ n, start ≤ n → n < text.length → ∃ p ∈ bs, p.1 ≤ n ∧ n < p.2) := by
  intro fuel
  induction fuel with
  | zero => intro start h1 h2 _; omega
  | succ fuel ih =>
    intro start h1 h2 h3
    by_cases hlast : text.length ≤ start + S
    · refine ⟨[(start, text.length)], ?_, by simp, by simp, by simp, ?_, ?_, ?_⟩
      · simp only [APIUtils.chunk_text_go, if_pos h1, if_pos hlast, List.map_cons,
          List.map_nil]
        rw [← List.length_drop, List.take_length]
      · intro k hk; simp at hk
      · intro p hp
        simp only [List.mem_singleton] at hp
        subst hp
        refine ⟨le_refl _, h3, le_refl _, by omega⟩
      · intro n hn1 hn2
        exact ⟨(start, text.length), List.mem_singleton.mpr rfl, hn1, hn2⟩
    · push_neg at hlast
      obtain ⟨e, hgo, he1, he2, he3⟩ :
          ∃ e, APIUtils.chunk_text_go text S O start (fuel + 1)
              = (text.drop start).take (e - start) ::
                APIUtils.chunk_text_go text S O (e - O) fuel
            ∧ start + O < e ∧ e ≤ text.length ∧ e ≤ start + S + 1 := by
        cases hscan : APIUtils.scanBack text (start + S) O with
        | none =>
          refine ⟨start + S, ?_, by omega, by omega, by omega⟩
          simp only [APIUtils.chunk_text_go, if_pos h1, if_neg (by omega : ¬ text.length ≤ start + S),
            hscan]
        | some i =>
          obtain ⟨hi1, hi2⟩ := scanBack_bounds text O (start + S) i hscan
          refine ⟨i + 1, ?_, by omega, by omega, by omega⟩
          simp only [APIUtils.chunk_text_go, if_pos h1, if_neg (by omega : ¬ text.length ≤ start + S),
            hscan]
      obtain ⟨bs', hmap', hne', hhead', hlast', hchain', hbnd', hcov'⟩ :=
        ih (e - O) (by omega) (by omega) (by omega)
      refine ⟨(start, e) :: bs', ?_, by simp, by simp, ?_, ?_, ?_, ?_⟩
      · rw [hgo, hmap', List.map_cons]
      · obtain ⟨q, bs'', rfl⟩ := List.exists_cons_of_ne_nil hne'
        simpa using hlast'
      · intro k hk
        cases k with
        | zero =>
          obtain ⟨q, bs'', rfl⟩ := List.exists_cons_of_ne_nil hne'
          simp only [List.getD_cons_succ, List.getD_cons_zero] at hhead' ⊢
          omega
        | succ k =>
          simp only [List.getD_cons_succ]
          simp only [List.length_cons] at hk
          exact hchain' k (by omega)
      · intro p hp
        rcases List.mem_cons.mp hp with hp | hp
        · subst hp
          exact ⟨le_refl _, by omega, he2, by omega⟩
        · obtain ⟨ha, hb, hc, hd⟩ := hbnd' p hp
          exact ⟨by omega, hb, hc, hd⟩
      · intro n hn1 hn2
        by_cases hne2 : n < e
        · exact ⟨(start, e), List.mem_cons_self _ _, hn1, hne2⟩
        · obtain ⟨p, hp, hp1, hp2⟩ := hcov' n (by omega) hn2
          exact ⟨p, List.mem_cons_of_mem _ hp, hp1, hp2⟩

/-! ## Claim theorems -/

/-- Claim C1 (code bug evidence): when every chunk of a text-processing run
fails, `_process_text_chunks` still returns `success=true` with the substituted
original text and a warning, because the unconditional original-text fallback
makes the all-failed error branch unreachable — contrary to the claimed
`success=false` with an explanatory error. -/
theorem c1_zero_success_still_returns_success :
    DeepSeekClient.process_text_chunks "hello".toList
        (fun _ _ => (false, none, some "API调用失败"))
      = (true, some "[处理失败，原文本] hello", some "注意：有 1 个文本块处理失败") := by
  rfl

/-- Claim C2 (counterexample): a 200 response with an unrecognized non-empty
body is surfaced as a parse failure at once — no backoff is slept and the
well-formed response available at the second attempt is never requested. -/
theorem c2_counterexample_no_retry_on_unrecognized_shape :
    DeepSeekClient.process_single_text c2CounterEnv
      = (false, none, some "API响应格式异常") ∧
    (APIUtils.make_request c2CounterEnv 60 3 1).2 = [] :=
  ⟨rfl, rfl⟩

/-- Claim C2 (amended): an unrecognized response shape on a successful
transport call is surfaced immediately as the parse failure `API响应格式异常`,
with no retry (the result does not depend on any attempt past the first) and
no backoff sleep. -/
theorem c2_amended_parse_failure_is_immediate (env : Nat → AttemptOutcome)
    (rd : RespData) (rawText : String)
    (henv : env 0 = .http 200 (some rd) rawText)
    (htruthy : rd.truthy = true)
    (hex : DeepSeekClient.extract_response_text rd = none) :
    DeepSeekClient.process_single_text env = (false, none, some "API响应格式异常") ∧
    (APIUtils.make_request env 60 3 1).2 = [] := by
  have hmr : APIUtils.make_request env 60 3 1 = (⟨true, some rd, none⟩, []) := by
    simp [APIUtils.make_request, APIUtils.make_request_go, henv]
  constructor
  · simp [DeepSeekClient.process_single_text, hmr, htruthy, hex]
  · rw [hmr]

/-- Witness for C2's amended theorem at a concrete unrecognized body. -/
theorem c2_amended_parse_failure_is_immediate_witness :
    ((fun _ => AttemptOutcome.http 200 (some ⟨none, none, true⟩) "x") 0
        = AttemptOutcome.http 200 (some ⟨none, none, true⟩) "x") ∧
    (RespData.truthy ⟨none, none, true⟩ = true) ∧
    (DeepSeekClient.extract_response_text ⟨none, none, true⟩ = none) ∧
    (DeepSeekClient.process_single_text
        (fun _ => AttemptOutcome.http 200 (some ⟨none, none, true⟩) "x")
      = (false, none, some "API响应格式异常") ∧
    (APIUtils.make_request
        (fun _ => AttemptOutcome.http 200 (some ⟨none, none, true⟩) "x") 60 3 1).2 = []) :=
  ⟨rfl, rfl, rfl,
    c2_amended_parse_failure_is_immediate
      (fun _ => AttemptOutcome.http 200 (some ⟨none, none, true⟩) "x")
      ⟨none, none, true⟩ "x" rfl rfl rfl⟩

/-- Claim C5: when every attempt's outcome is transient, the delay slept
before 0-based retry `a` is exactly `retry_delay * 2 ^ a`; consequently the
delay sequence is non-decreasing and bounded by
`retry_delay * 2 ^ (max_retries - 1)`. -/
theorem c5_exponential_backoff (env : Nat → AttemptOutcome) (T max_retries : Nat)
    (d : ℚ) (hd : 0 ≤ d) (hmax : 1 ≤ max_retries)
    (htr : ∀ k, k < max_retries → APIUtils.isTransient (env k) = true) :
    (APIUtils.make_request env T max_retries d).2
      = (List.range (max_retries - 1)).map (fun a => d * 2 ^ a) ∧
    (∀ a, a < max_retries - 1 →
      (APIUtils.make_request env T max_retries d).2.getD a 0 = d * 2 ^ a) ∧
    (∀ i, i + 1 < (APIUtils.make_request env T max_retries d).2.length →
      (APIUtils.make_request env T max_retries d).2.getD i 0
        ≤ (APIUtils.make_request env T max_retries d).2.getD (i + 1) 0) ∧
    (∀ x ∈ (APIUtils.make_request env T max_retries d).2, x ≤ d * 2 ^ (max_retries - 1)) := by
  have hdel : (APIUtils.make_request env T max_retries d).2
      = (List.range (max_retries - 1)).map (fun a => d * 2 ^ a) := by
    rw [APIUtils.make_request]
    rw [make_request_go_delays env T d max_retries max_retries 0 (by omega)
      (fun k hk => by simpa using htr k hk)]
    simp
  refine ⟨hdel, ?_, ?_, ?_⟩
  · intro a ha
    rw [hdel, getD_map_range _ _ _ _ ha]
  · intro i hi
    have hlen : (APIUtils.make_request env T max_retries d).2.length = max_retries - 1 := by
      rw [hdel]; simp
    rw [hlen] at hi
    rw [hdel, getD_map_range _ _ _ _ (by omega), getD_map_range _ _ _ _ hi]
    exact mul_le_mul_of_nonneg_left (pow_le_pow_right (by norm_num) (by omega)) hd
  · intro x hx
    rw [hdel] at hx
    obtain ⟨a, ha, rfl⟩ := List.mem_map.mp hx
    have ha' : a ≤ max_retries - 1 := le_of_lt (List.mem_range.mp ha)
    exact mul_le_mul_of_nonneg_left (pow_le_pow_right (by norm_num) ha') hd

/-- Witness for C5 at a concrete all-timeout environment with three attempts. -/
theorem c5_exponential_backoff_witness :
    ((0 : ℚ) ≤ 1 ∧ 1 ≤ 3) ∧
    (APIUtils.make_request (fun _ => AttemptOutcome.timeout) 30 3 1).2
      = (List.range 2).map (fun a => (1 : ℚ) * 2 ^ a) :=
  ⟨⟨by norm_num, by norm_num⟩,
    (c5_exponential_backoff (fun _ => AttemptOutcome.timeout) 30 3 1
      (by norm_num) (by norm_num) (fun k _ => rfl)).1⟩

/-- Claim C6: a 4xx status at any reached attempt `a` (the attempts before it
having transient outcomes) makes the executor return that attempt's failure
immediately: the delay trace holds exactly the `a` backoff sleeps performed
before attempt `a`, so the 4xx attempt triggers no sleep, and the result does
not depend on any attempt past `a` (the environment is unconstrained there);
moreover, in any call, a slept delay at position `i` implies attempt `i`'s
outcome was transient (timeout, connection error, 5xx-equivalent status or
another request exception) — only those are retried. -/
theorem c6_terminal_4xx_fails_immediately (env : Nat → AttemptOutcome)
    (T max_retries : Nat) (d : ℚ) (a status : Nat) (jsonBody : Option RespData)
    (rawText : String) (ha : a < max_retries)
    (htr : ∀ k, k < a → APIUtils.isTransient (env k) = true)
    (h400 : 400 ≤ status) (h500 : status < 500)
    (henv : env a = .http status jsonBody rawText) :
    APIUtils.make_request env T max_retries d
      = (⟨false, none, some (APIUtils.httpErrorMsg status rawText)⟩,
         (List.range a).map (fun k => d * 2 ^ k)) ∧
    ∀ env2 : Nat → AttemptOutcome, ∀ i,
      i < (APIUtils.make_request env2 T max_retries d).2.length →
      APIUtils.isTransient (env2 i) = true := by
  constructor
  · rw [APIUtils.make_request]
    rw [make_request_go_4xx env T d max_retries a 0 max_retries (by omega) ha
      (fun k hk => by simpa using htr k hk) status jsonBody rawText
      (by simpa using henv) h400 h500]
    simp
  · intro env2 i hi
    have := make_request_go_sleep_transient env2 T d max_retries max_retries 0 i
      (by simpa [APIUtils.make_request] using hi)
    simpa using this

/-- Witness for C6: a timeout at attempt 0 followed by a 404 at attempt 1 —
one backoff sleep before the 404, none after it. -/
theorem c6_terminal_4xx_fails_immediately_witness :
    ((1 < 3 ∧ 400 ≤ 404 ∧ 404 < 500) ∧
      (∀ k, k < 1 → APIUtils.isTransient (c6WitnessEnv k) = true) ∧
      c6WitnessEnv 1 = AttemptOutcome.http 404 none "nf") ∧
    APIUtils.make_request c6WitnessEnv 30 3 1
      = (⟨false, none, some (APIUtils.httpErrorMsg 404 "nf")⟩,
         (List.range 1).map (fun k => (1 : ℚ) * 2 ^ k)) :=
  ⟨⟨⟨by norm_num, by norm_num, by norm_num⟩,
    fun k hk => by
      have hk0 : k = 0 := by omega
      rw [hk0]
      rfl,
    rfl⟩,
    (c6_terminal_4xx_fails_immediately c6WitnessEnv 30 3 1 1 404 none "nf"
      (by norm_num)
      (fun k hk => by
        have hk0 : k = 0 := by omega
        rw [hk0]
        rfl)
      (by norm_num) (by norm_num) rfl).1⟩

/-- Claim C8: a `get` of a key whose entry is expired in both tiers at read
time returns absent and, as a side effect of that read, removes the entry
from the in-memory tier and from the durable tier. -/
theorem c8_expired_get_purges_both_tiers (st : CacheState) (now : ℚ) (key : String)
    (em ef : CacheEntry)
    (hen : st.enabled = true)
    (hm : st.memory key = some em)
    (hf : st.files key = some ef)
    (hem : st.ttl_hours * 3600 < now - em.timestamp)
    (hef : st.ttl_hours * 3600 < now - ef.timestamp) :
    (Cache.get st now key).1 = none ∧
    (Cache.get st now key).2.memory key = none ∧
    (Cache.get st now key).2.files key = none := by
  simp [Cache.get, Cache.getFile, hen, hm, hf, is_expired, hem, hef, mapErase]

/-- Length of a filtered `range (n+1)` split into the head index and the
shifted tail. -/
theorem range_filter_succ_length (p : Nat → Bool) (n : Nat) :
    ((List.range (n + 1)).filter p).length
      = (if p 0 = true then 1 else 0)
        + ((List.range n).filter (fun k => p (k + 1))).length := by
  rw [List.range_succ_eq_map, List.filter_cons]
  have hc : (p ∘ Nat.succ) = fun k => p (k + 1) := by
    funext k
    simp [Function.comp, Nat.succ_eq_add_one]
  split_ifs with h0
  · simp [List.filter_map, hc]
    omega
  · simp [List.filter_map, hc]

/-- Invariant of the chunk-processing loop: one output piece per chunk, the
failure counter counts exactly the failed chunk indices, and the piece at a
failed index is the marked original chunk text. -/
theorem process_chunks_go_spec
    (call : Nat → List Char → Bool × Option String × Option String) :
    ∀ (chunks : List (List Char)) (i : Nat),
      (DeepSeekClient.process_chunks_go call i chunks).1.length = chunks.length ∧
      (DeepSeekClient.process_chunks_go call i chunks).2
        = ((List.range chunks.length).filter fun k =>
            DeepSeekClient.chunkFailed (call (i + k) (chunks.getD k []))).length ∧
      (∀ k, k < chunks.length →
        DeepSeekClient.chunkFailed (call (i + k) (chunks.getD k [])) = true →
        (DeepSeekClient.process_chunks_go call i chunks).1.getD k ""
          = DeepSeekClient.fallbackText (chunks.getD k [])) := by
  intro chunks
  induction chunks with
  | nil =>
    intro i
    refine ⟨rfl, rfl, ?_⟩
    intro k hk
    simp at hk
  | cons c rest ih =>
    intro i
    obtain ⟨ih1, ih2, ih3⟩ := ih (i + 1)
    have hshift : (fun k => DeepSeekClient.chunkFailed (call (i + (k + 1)) (rest.getD k [])))
        = (fun k => DeepSeekClient.chunkFailed (call (i + 1 + k) (rest.getD k []))) := by
      funext k
      have harg : i + (k + 1) = i + 1 + k := by omega
      rw [harg]
    have hcount : ((List.range (rest.length + 1)).filter fun k =>
          DeepSeekClient.chunkFailed (call (i + k) ((c :: rest).getD k []))).length
        = (if DeepSeekClient.chunkFailed (call i c) = true then 1 else 0)
          + ((List.range rest.length).filter fun k =>
              DeepSeekClient.chunkFailed (call (i + 1 + k) (rest.getD k []))).length := by
      rw [range_filter_succ_length]
      simp only [List.getD_cons_zero, List.getD_cons_succ, Nat.add_zero]
      rw [hshift]
    rcases hr : call i c with ⟨b, po, eo⟩
    cases b with
    | false =>
      have hcf : DeepSeekClient.chunkFailed (call i c) = true := by rw [hr]; rfl
      refine ⟨by simp [DeepSeekClient.process_chunks_go, hr, ih1], ?_, ?_⟩
      · simp only [DeepSeekClient.process_chunks_go, hr, List.length_cons]
        rw [hcount, ih2, hcf]
        simp
        omega
      · intro k hk hfk
        cases k with
        | zero => simp [DeepSeekClient.process_chunks_go, hr]
        | succ k =>
          simp only [DeepSeekClient.process_chunks_go, hr, List.getD_cons_succ]
          refine ih3 k (by simpa using hk) ?_
          have harg : i + 1 + k = i + (k + 1) := by omega
          rw [harg]
          simpa using hfk
    | true =>
      cases po with
      | none =>
        have hcf : DeepSeekClient.chunkFailed (call i c) = true := by rw [hr]; rfl
        refine ⟨by simp [DeepSeekClient.process_chunks_go, hr, ih1], ?_, ?_⟩
        · simp only [DeepSeekClient.process_chunks_go, hr, List.length_cons]
          rw [hcount, ih2, hcf]
          simp
          omega
        · intro k hk hfk
          cases k with
          | zero => simp [DeepSeekClient.process_chunks_go, hr]
          | succ k =>
            simp only [DeepSeekClient.process_chunks_go, hr, List.getD_cons_succ]
            refine ih3 k (by simpa using hk) ?_
            have harg : i + 1 + k = i + (k + 1) := by omega
            rw [harg]
            simpa using hfk
      | some s =>
        by_cases hs : s = ""
        · subst hs
          have hcf : DeepSeekClient.chunkFailed (call i c) = true := by rw [hr]; rfl
          refine ⟨by simp [DeepSeekClient.process_chunks_go, hr, ih1], ?_, ?_⟩
          · simp only [DeepSeekClient.process_chunks_go, hr, List.length_cons]
            rw [hcount, ih2, hcf]
            simp
            omega
          · intro k hk hfk
            cases k with
            | zero => simp [DeepSeekClient.process_chunks_go, hr]
            | succ k =>
              simp only [DeepSeekClient.process_chunks_go, hr, List.getD_cons_succ]
              refine ih3 k (by simpa using hk) ?_
              have harg : i + 1 + k = i + (k + 1) := by omega
              rw [harg]
              simpa using hfk
        · have hcf : DeepSeekClient.chunkFailed (call i c) = false := by
            rw [hr]
            simp only [DeepSeekClient.chunkFailed]
            exact beq_eq_false_iff_ne.mpr hs
          refine ⟨by simp [DeepSeekClient.process_chunks_go, hr, hs, ih1], ?_, ?_⟩
          · simp only [DeepSeekClient.process_chunks_go, hr, List.length_cons]
            rw [hcount, ih2, hcf]
            simp [hs]
          · intro k hk hfk
            cases k with
            | zero =>
              exfalso
              have hfk0 : DeepSeekClient.chunkFailed (call (i + 0) ((c :: rest).getD 0 []))
                  = true := hfk
              rw [Nat.add_zero, List.getD_cons_zero, hcf] at hfk0
              exact Bool.false_ne_true hfk0
            | succ k =>
              simp only [DeepSeekClient.process_chunks_go, hr, List.getD_cons_succ]
              rw [if_neg hs]
              simp only [List.getD_cons_succ]
              refine ih3 k (by simpa using hk) ?_
              have harg : i + 1 + k = i + (k + 1) := by omega
              rw [harg]
              simpa using hfk

/-- The loop invariant at base index 0, with the failure counter phrased as
`failedCount`. -/
theorem process_chunks_go_zero
    (call : Nat → List Char → Bool × Option String × Option String)
    (chunks : List (List Char)) :
    (DeepSeekClient.process_chunks_go call 0 chunks).1.length = chunks.length ∧
    (DeepSeekClient.process_chunks_go call 0 chunks).2 = failedCount call chunks ∧
    (∀ k, k < chunks.length →
      DeepSeekClient.chunkFailed (call k (chunks.getD k [])) = true →
      (DeepSeekClient.process_chunks_go call 0 chunks).1.getD k ""
        = DeepSeekClient.fallbackText (chunks.getD k [])) := by
  obtain ⟨h1, h2, h3⟩ := process_chunks_go_spec call chunks 0
  refine ⟨h1, ?_, ?_⟩
  · rw [h2, failedCount]
    simp
  · intro k hk hfk
    exact h3 k hk (by simpa using hfk)

/-- Claim C4: in a chunked run where some chunk fails and at least one chunk
succeeds, the run returns `success=true`, the combined output is the
double-newline join of one piece per chunk in which every failed chunk's piece
carries that chunk's original input text (marked), and the warning states the
number of failed chunks. -/
theorem c4_partial_failure_keeps_original_text (text : List Char)
    (call : Nat → List Char → Bool × Option String × Option String)
    (hfail : ∃ k, k < (APIUtils.chunk_text text 2000 200).length ∧
      DeepSeekClient.chunkFailed
        (call k ((APIUtils.chunk_text text 2000 200).getD k [])) = true)
    (_hsucc : ∃ k, k < (APIUtils.chunk_text text 2000 200).length ∧
      DeepSeekClient.chunkFailed
        (call k ((APIUtils.chunk_text text 2000 200).getD k [])) = false) :
    (DeepSeekClient.process_text_chunks text call).1 = true ∧
    ∃ pieces : List String,
      (DeepSeekClient.process_text_chunks text call).2.1
        = some (String.intercalate "\n\n" pieces) ∧
      pieces.length = (APIUtils.chunk_text text 2000 200).length ∧
      (∀ k, k < (APIUtils.chunk_text text 2000 200).length →
        DeepSeekClient.chunkFailed
          (call k ((APIUtils.chunk_text text 2000 200).getD k [])) = true →
        pieces.getD k ""
          = DeepSeekClient.fallbackText ((APIUtils.chunk_text text 2000 200).getD k [])) ∧
      (DeepSeekClient.process_text_chunks text call).2.2
        = some (DeepSeekClient.chunkWarning
            (failedCount call (APIUtils.chunk_text text 2000 200))) := by
  obtain ⟨hlen, hcnt, hpieces⟩ := process_chunks_go_zero call (APIUtils.chunk_text text 2000 200)
  obtain ⟨kf, hkf, hkff⟩ := hfail
  have hposf : 0 < failedCount call (APIUtils.chunk_text text 2000 200) := by
    have hmem : kf ∈ (List.range (APIUtils.chunk_text text 2000 200).length).filter
        (fun k => DeepSeekClient.chunkFailed
          (call k ((APIUtils.chunk_text text 2000 200).getD k []))) :=
      List.mem_filter.mpr ⟨List.mem_range.mpr hkf, hkff⟩
    exact List.length_pos.mpr (List.ne_nil_of_mem hmem)
  have hne : (DeepSeekClient.process_chunks_go call 0
      (APIUtils.chunk_text text 2000 200)).1 ≠ [] := by
    apply List.length_pos.mp
    rw [hlen]
    omega
  have hgo : DeepSeekClient.process_text_chunks text call
      = (true, some (String.intercalate "\n\n"
          (DeepSeekClient.process_chunks_go call 0 (APIUtils.chunk_text text 2000 200)).1),
        some (DeepSeekClient.chunkWarning
          (failedCount call (APIUtils.chunk_text text 2000 200)))) := by
    rw [DeepSeekClient.process_text_chunks]
    rw [if_neg hne, if_pos (by rw [hcnt]; exact hposf)]
    rw [hcnt]
  refine ⟨by rw [hgo], ?_⟩
  exact ⟨(DeepSeekClient.process_chunks_go call 0 (APIUtils.chunk_text text 2000 200)).1,
    by rw [hgo], hlen, hpieces, by rw [hgo]⟩

/-- The 2500-character witness text yields more than one chunk: a single chunk
would have to span 2500 positions, but every chunk spans at most
`max_length + 1 = 2001`. -/
theorem c4Text_two_chunks : 1 < (APIUtils.chunk_text c4Text 2000 200).length := by
  have hL : c4Text.length = 2500 := by rw [c4Text, List.length_replicate]
  rw [APIUtils.chunk_text, if_neg (by omega)]
  obtain ⟨bs, hmap, hne, hhead, hlast, _hchain, hbnd, _hcov⟩ :=
    chunk_text_go_spec c4Text 2000 200 (by norm_num) (by norm_num) (by norm_num)
      (c4Text.length + 1) 0 (by omega) (by omega) (by omega)
  rw [hmap, List.length_map]
  by_contra hlt
  push_neg at hlt
  have h1 : 0 < bs.length := List.length_pos.mpr hne
  have heq : bs.length - 1 = 0 := by omega
  rw [heq] at hlast
  have hmem : bs.getD 0 (0, 0) ∈ bs := by
    rw [List.getD_eq_getElem bs (0, 0) h1]
    exact List.getElem_mem h1
  obtain ⟨_, _, _, hd⟩ := hbnd _ hmem
  omega

/-- Witness for C4: chunk 0 of the 2500-character text succeeds with `OK`,
every later chunk fails. -/
theorem c4_partial_failure_keeps_original_text_witness :
    ((∃ k, k < (APIUtils.chunk_text c4Text 2000 200).length ∧
      DeepSeekClient.chunkFailed
        (c4Call k ((APIUtils.chunk_text c4Text 2000 200).getD k [])) = true) ∧
     (∃ k, k < (APIUtils.chunk_text c4Text 2000 200).length ∧
      DeepSeekClient.chunkFailed
        (c4Call k ((APIUtils.chunk_text c4Text 2000 200).getD k [])) = false)) ∧
    ((DeepSeekClient.process_text_chunks c4Text c4Call).1 = true ∧
    ∃ pieces : List String,
      (DeepSeekClient.process_text_chunks c4Text c4Call).2.1
        = some (String.intercalate "\n\n" pieces) ∧
      pieces.length = (APIUtils.chunk_text c4Text 2000 200).length ∧
      (∀ k, k < (APIUtils.chunk_text c4Text 2000 200).length →
        DeepSeekClient.chunkFailed
          (c4Call k ((APIUtils.chunk_text c4Text 2000 200).getD k [])) = true →
        pieces.getD k ""
          = DeepSeekClient.fallbackText ((APIUtils.chunk_text c4Text 2000 200).getD k [])) ∧
      (DeepSeekClient.process_text_chunks c4Text c4Call).2.2
        = some (DeepSeekClient.chunkWarning
            (failedCount c4Call (APIUtils.chunk_text c4Text 2000 200)))) :=
  ⟨⟨⟨1, c4Text_two_chunks, rfl⟩, ⟨0, Nat.lt_trans Nat.zero_lt_one c4Text_two_chunks, rfl⟩⟩,
    c4_partial_failure_keeps_original_text c4Text c4Call
      ⟨1, c4Text_two_chunks, rfl⟩ ⟨0, Nat.lt_trans Nat.zero_lt_one c4Text_two_chunks, rfl⟩⟩

/-- Claim C7 (counterexample): with `S = 10`, `O = 4` and a 17-character text
holding a sentence ender at index 10, `chunk_text` produces 2 chunks, fewer
than `ceil((L - O) / (S - O)) = 3`: the boundary search may end a chunk at
`start + S + 1`, so the claimed count bound fails. -/
theorem c7_counterexample_segment_count :
    (APIUtils.chunk_text c7Text 10 4).length
      < ((c7Text.length - 4) + (10 - 4) - 1) / (10 - 4) := by
  decide

/-- Claim C7 (amended): for `0 < O < S` with `2 * O ≤ S + 1` (for larger
overlaps the backward boundary search can move the next start backward and the
loop need not terminate) and `S < L`, the chunker produces at least
`ceil((L - O) / (S + 1 - O))` chunks — the denominator is `S + 1 - O`, not
`S - O`, because a found sentence ender at index `start + S` legitimately ends
the chunk at `start + S + 1` — and every chunk is at most `S + 1` characters
long (boundary-search tolerance 1). -/
theorem c7_amended_segment_count_and_size (text : List Char) (S O : Nat)
    (hO : 0 < O) (hOS : O < S) (hSO : 2 * O ≤ S + 1) (hlen : S < text.length) :
    ((text.length - O) + (S + 1 - O) - 1) / (S + 1 - O)
      ≤ (APIUtils.chunk_text text S O).length ∧
    ∀ c ∈ APIUtils.chunk_text text S O, c.length ≤ S + 1 := by
  rw [APIUtils.chunk_text, if_neg (by omega)]
  obtain ⟨bs, hmap, hne, hhead, hlast, hchain, hbnd, hcov⟩ :=
    chunk_text_go_spec text S O hO hOS hSO (text.length + 1) 0 (by omega) (by omega)
      (by omega)
  have hn1 : 0 < bs.length := List.length_pos.mpr hne
  constructor
  · have hstart : ∀ k, k < bs.length → (bs.getD k (0, 0)).1 ≤ k * (S + 1 - O) := by
      intro k
      induction k with
      | zero => intro _; omega
      | succ k ihk =>
        intro hk
        have hk' : k < bs.length := by omega
        have hch := hchain k hk
        have hmem : bs.getD k (0, 0) ∈ bs := by
          rw [List.getD_eq_getElem bs (0, 0) hk']
          exact List.getElem_mem hk'
        obtain ⟨_, _, _, hd⟩ := hbnd _ hmem
        have hk2 := ihk hk'
        have hmul : (k + 1) * (S + 1 - O) = k * (S + 1 - O) + (S + 1 - O) :=
          Nat.succ_mul k (S + 1 - O)
        omega
    have hmeml : bs.getD (bs.length - 1) (0, 0) ∈ bs := by
      rw [List.getD_eq_getElem bs (0, 0) (by omega)]
      exact List.getElem_mem (by omega)
    obtain ⟨_, _, _, hd⟩ := hbnd _ hmeml
    have hs := hstart (bs.length - 1) (by omega)
    rw [hmap, List.length_map]
    rw [Nat.div_le_iff_le_mul_add_pred (by omega)]
    have hmul : bs.length * (S + 1 - O)
        = (bs.length - 1) * (S + 1 - O) + (S + 1 - O) := by
      conv_lhs => rw [← Nat.succ_pred_eq_of_pos hn1]
      exact Nat.succ_mul _ _
    have hcomm : (S + 1 - O) * bs.length = bs.length * (S + 1 - O) :=
      Nat.mul_comm _ _
    omega
  · intro c hc
    rw [hmap] at hc
    obtain ⟨p, hp, rfl⟩ := List.mem_map.mp hc
    obtain ⟨_, _, _, hd⟩ := hbnd p hp
    simp only [List.length_take, List.length_drop]
    omega

/-- Witness for C7's amended theorem at `S = 10`, `O = 4` on the same
17-character text. -/
theorem c7_amended_segment_count_and_size_witness :
    (0 < 4 ∧ 4 < 10 ∧ 2 * 4 ≤ 10 + 1 ∧ 10 < c7Text.length) ∧
    (((c7Text.length - 4) + (10 + 1 - 4) - 1) / (10 + 1 - 4)
        ≤ (APIUtils.chunk_text c7Text 10 4).length ∧
      ∀ c ∈ APIUtils.chunk_text c7Text 10 4, c.length ≤ 10 + 1) :=
  ⟨⟨by norm_num, by norm_num, by norm_num, by decide⟩,
    c7_amended_segment_count_and_size c7Text 10 4 (by norm_num) (by norm_num)
      (by norm_num) (by decide)⟩

/-- Claim C10: for `0 < overlap < max_length / 2` and an over-long text, the
chunks are the slices of a bounds list whose first chunk starts at 0, whose
last chunk ends at the end of the text, in which each subsequent chunk begins
exactly `overlap` characters before the previous chunk's end, every chunk is
at least `overlap` characters wide (so adjacent chunks overlap in exactly
`overlap` characters), and every character position lies in some chunk. -/
theorem c10_chunk_overlap_structure (text : List Char) (max_length overlap : Nat)
    (hO : 0 < overlap) (h2O : 2 * overlap < max_length)
    (hlen : max_length < text.length) :
    ∃ bs : List (Nat × Nat),
      APIUtils.chunk_text text max_length overlap
        = bs.map (fun p => (text.drop p.1).take (p.2 - p.1)) ∧
      bs ≠ [] ∧
      (bs.getD 0 (0, 0)).1 = 0 ∧
      (bs.getD (bs.length - 1) (0, 0)).2 = text.length ∧
      (∀ k, k + 1 < bs.length →
        (bs.getD (k + 1) (0, 0)).1 + overlap = (bs.getD k (0, 0)).2) ∧
      (∀ p ∈ bs, p.1 + overlap ≤ p.2 ∧ p.2 ≤ text.length) ∧
      (∀ n, n < text.length → ∃ p ∈ bs, p.1 ≤ n ∧ n < p.2) := by
  rw [APIUtils.chunk_text, if_neg (by omega)]
  obtain ⟨bs, hmap, hne, hhead, hlast, hchain, hbnd, hcov⟩ :=
    chunk_text_go_spec text max_length overlap hO (by omega) (by omega)
      (text.length + 1) 0 (by omega) (by omega) (by omega)
  exact ⟨bs, hmap, hne, hhead, hlast, hchain,
    fun p hp => ⟨(hbnd p hp).2.1, (hbnd p hp).2.2.1⟩,
    fun n hn => hcov n (Nat.zero_le n) hn⟩

/-- Witness for C10 at `max_length = 10`, `overlap = 3` on the 17-character
text. -/
theorem c10_chunk_overlap_structure_witness :
    (0 < 3 ∧ 2 * 3 < 10 ∧ 10 < c7Text.length) ∧
    (∃ bs : List (Nat × Nat),
      APIUtils.chunk_text c7Text 10 3
        = bs.map (fun p => (c7Text.drop p.1).take (p.2 - p.1)) ∧
      bs ≠ [] ∧
      (bs.getD 0 (0, 0)).1 = 0 ∧
      (bs.getD (bs.length - 1) (0, 0)).2 = c7Text.length ∧
      (∀ k, k + 1 < bs.length →
        (bs.getD (k + 1) (0, 0)).1 + 3 = (bs.getD k (0, 0)).2) ∧
      (∀ p ∈ bs, p.1 + 3 ≤ p.2 ∧ p.2 ≤ c7Text.length) ∧
      (∀ n, n < c7Text.length → ∃ p ∈ bs, p.1 ≤ n ∧ n < p.2)) :=
  ⟨⟨by norm_num, by norm_num, by decide⟩,
    c10_chunk_overlap_structure c7Text 10 3 (by norm_num) (by norm_num) (by decide)⟩

/-- Claim C3 (counterexample): an existing 30 MB artifact with a known 120 s
duration, for which every splitting strategy yields nothing and every fallback
copy fails, makes `split_audio` return a failure with zero segments instead of
the whole artifact as one segment. -/
theorem c3_counterexample_split_can_fail_with_zero_segments :
    SegmentProcessor.split_audio c3CounterEnv
      = .triple false [] (some "音频分割失败") := by
  have hios : c3CounterEnv.ios_segments = [] := rfl
  have hpy : c3CounterEnv.python_segments = [] := rfl
  have hsz : c3CounterEnv.file_size_mb = 30 := rfl
  have hcp : c3CounterEnv.copy_ok = fun _ => false := rfl
  have hok : c3CounterEnv.file_ok = true := rfl
  have hdur : c3CounterEnv.duration = some (120 : ℚ) := rfl
  have hcd : c3CounterEnv.chunk_duration = 60 := rfl
  have hperf : SegmentProcessor.perform_audio_split c3CounterEnv = [] := by
    rw [SegmentProcessor.perform_audio_split, hios, hpy]
    rw [if_neg (by simp), if_neg (by simp)]
    rw [SegmentProcessor.split_by_file_size, hsz]
    rw [if_neg (by norm_num)]
    simp [hcp]
  simp only [SegmentProcessor.split_audio, hok, hdur, hcd, hperf]
  rw [if_neg (by simp)]
  rw [if_neg (by norm_num : ¬ (120 : ℚ) ≤ 60)]
  rw [if_neg (by simp)]

/-- Claim C3 (amended): for an existing artifact whose measured size is within
the 25 MB size-fallback threshold, `split_audio` always reports success with a
non-empty segment list (degrading to the whole artifact when no strategy
yields segments, returned as a bare pair on the unknown-duration path); an
artifact above the threshold whose every strategy and fallback copy fails gets
a failure with zero segments instead. -/
theorem c3_amended_small_artifact_never_zero_segments
    (env : SegmentProcessor.AudioEnv)
    (hok : env.file_ok = true) (hsize : env.file_size_mb ≤ 25) :
    (SegmentProcessor.split_audio env).ok = true ∧
    (SegmentProcessor.split_audio env).segments ≠ [] := by
  cases hd : env.duration with
  | none =>
    have hmain : SegmentProcessor.split_audio env
        = .pair (SegmentProcessor.split_by_file_size env).1
            (SegmentProcessor.split_by_file_size env).2 := by
      simp [SegmentProcessor.split_audio, hok, hd]
    rw [hmain, SegmentProcessor.split_by_file_size, if_pos hsize]
    exact ⟨rfl, by simp [SegmentProcessor.SplitResult.segments]⟩
  | some d =>
    by_cases hdc : d ≤ env.chunk_duration
    · have hmain : SegmentProcessor.split_audio env
          = .triple true [env.audio_path] none := by
        simp [SegmentProcessor.split_audio, hok, hd, hdc]
      rw [hmain]
      exact ⟨rfl, by simp [SegmentProcessor.SplitResult.segments]⟩
    · have hp : SegmentProcessor.perform_audio_split env ≠ [] := by
        rw [SegmentProcessor.perform_audio_split]
        by_cases hi : env.ios_segments = []
        · rw [if_neg (by simp [hi])]
          by_cases hpy : env.python_segments = []
          · rw [if_neg (by simp [hpy])]
            rw [SegmentProcessor.split_by_file_size, if_pos hsize]
            simp
          · rw [if_pos hpy]
            exact hpy
        · rw [if_pos hi]
          exact hi
      have hmain : SegmentProcessor.split_audio env
          = .triple true (SegmentProcessor.perform_audio_split env) none := by
        simp [SegmentProcessor.split_audio, hok, hd, hdc, hp]
      rw [hmain]
      exact ⟨rfl, hp⟩

/-- Witness for C3's amended theorem: a 10 MB artifact with unknown duration
and no working strategy still yields the whole artifact as one segment. -/
theorem c3_amended_small_artifact_never_zero_segments_witness :
    (c3SmallEnv.file_ok = true ∧ c3SmallEnv.file_size_mb ≤ 25) ∧
    ((SegmentProcessor.split_audio c3SmallEnv).ok = true ∧
      (SegmentProcessor.split_audio c3SmallEnv).segments ≠ []) :=
  ⟨⟨rfl, by norm_num [c3SmallEnv]⟩,
    c3_amended_small_artifact_never_zero_segments c3SmallEnv rfl
      (by norm_num [c3SmallEnv])⟩

/-- Claim C9 (counterexample): a failing single-file run fires the fractions
`0, 0.1, 0.2, 0.3, 0.3, 0` — the final failure callback reports `0.0` after
`0.3`, so the fraction sequence is not monotonically non-decreasing. -/
theorem c9_counterexample_progress_not_monotone :
    (Transcriber.transcribe c9CounterEnv).2
      = [0, 0.1, 0.2, 0.3, 0.3, 0] ∧
    ¬ List.Chain' (fun a b => a ≤ b) (Transcriber.transcribe c9CounterEnv).2 := by
  have ht : (Transcriber.transcribe c9CounterEnv).2
      = [0, 0.1, 0.2, 0.3, 0.3, 0] := by rfl
  refine ⟨ht, ?_⟩
  rw [ht]
  intro h
  rw [List.chain'_cons, List.chain'_cons, List.chain'_cons, List.chain'_cons,
    List.chain'_cons] at h
  exact absurd h.2.2.2.2.1 (by norm_num)

/-- Claim C9 (amended): in a non-segmented run, the fractions passed to the
progress callback are monotonically non-decreasing whenever the run succeeds
(cache hit or successful single-file transcription); a run that fails ends
with a final callback reporting fraction `0.0`, breaking monotonicity. -/
theorem c9_amended_progress_monotone_on_success (env : TransEnv)
    (hsplit : env.should_split = false) :
    ((Transcriber.transcribe env).1.1 = true →
      List.Chain' (fun a b => a ≤ b) (Transcriber.transcribe env).2) ∧
    ((Transcriber.transcribe env).1.1 = false →
      (Transcriber.transcribe env).2.getLast? = some 0) := by
  rcases hres : env.single_result with ⟨b, po, eo⟩
  cases hfo : env.file_ok with
  | false =>
    have ht : Transcriber.transcribe env
        = ((false, none, some "音频文件不存在"), [(0 : ℚ)]) := by
      rw [Transcriber.transcribe, hfo, if_pos rfl]
    have h1 : (Transcriber.transcribe env).1.1 = false := by rw [ht]
    have h2 : (Transcriber.transcribe env).2.getLast? = some 0 := by rw [ht]; rfl
    refine ⟨fun hs => ?_, fun _ => h2⟩
    rw [h1] at hs
    simp at hs
  | true =>
    cases hc : env.cached with
    | some t =>
      have ht : Transcriber.transcribe env = ((true, some t, none), [(0 : ℚ), 1]) := by
        simp only [Transcriber.transcribe, hfo, hc]
        rw [if_neg (by simp)]
      have h1 : (Transcriber.transcribe env).1.1 = true := by rw [ht]
      have h2 : (Transcriber.transcribe env).2 = [(0 : ℚ), 1] := by rw [ht]
      refine ⟨fun _ => ?_, fun hf => ?_⟩
      · rw [h2]
        norm_num [List.chain'_cons]
      · rw [h1] at hf
        simp at hf
    | none =>
      have hbr : (if env.should_split then Transcriber.transcribe_with_segments env
            else Transcriber.transcribe_single_file env)
          = ((b, po, eo), [(0.3 : ℚ), if b then (0.9 : ℚ) else 0.3]) := by
        rw [hsplit]
        rw [if_neg (by simp)]
        rw [Transcriber.transcribe_single_file, hres]
      have ht : Transcriber.transcribe env
          = ((b, po, eo), ((0 : ℚ) :: (0.1 : ℚ) :: (0.2 : ℚ) ::
              [(0.3 : ℚ), if b then (0.9 : ℚ) else 0.3])
            ++ [if b then (1 : ℚ) else 0]) := by
        simp only [Transcriber.transcribe, hfo, hc]
        rw [if_neg (by simp)]
        rw [hbr]
      have h1 : (Transcriber.transcribe env).1.1 = b := by rw [ht]
      cases b with
      | true =>
        have h2 : (Transcriber.transcribe env).2
            = [0, 0.1, 0.2, 0.3, 0.9, 1] := by rw [ht]; rfl
        refine ⟨fun _ => ?_, fun hf => ?_⟩
        · rw [h2]
          norm_num [List.chain'_cons]
        · rw [h1] at hf
          simp at hf
      | false =>
        have h2 : (Transcriber.transcribe env).2
            = [0, 0.1, 0.2, 0.3, 0.3, 0] := by rw [ht]; rfl
        refine ⟨fun hs => ?_, fun _ => ?_⟩
        · rw [h1] at hs
          simp at hs
        · rw [h2]
          rfl

/-- Witness for C9's amended theorem on a successful single-file run. -/
theorem c9_amended_progress_monotone_on_success_witness :
    (c9SuccessEnv.should_split = false) ∧
    ((Transcriber.transcribe c9SuccessEnv).1.1 = true →
      List.Chain' (fun a b => a ≤ b) (Transcriber.transcribe c9SuccessEnv).2) ∧
    ((Transcriber.transcribe c9SuccessEnv).1.1 = false →
      (Transcriber.transcribe c9SuccessEnv).2.getLast? = some 0) :=
  ⟨rfl, c9_amended_progress_monotone_on_success c9SuccessEnv rfl⟩

/-- Witness for C8: TTL one hour, entry created at time 0, read at time 7200. -/
theorem c8_expired_get_purges_both_tiers_witness :
    (c8State.enabled = true ∧ c8State.memory "k" = some c8Entry ∧
      c8State.files "k" = some c8Entry ∧
      c8State.ttl_hours * 3600 < 7200 - c8Entry.timestamp) ∧
    ((Cache.get c8State 7200 "k").1 = none ∧
      (Cache.get c8State 7200 "k").2.memory "k" = none ∧
      (Cache.get c8State 7200 "k").2.files "k" = none) :=
  ⟨⟨rfl, by simp [c8State], by simp [c8State], by norm_num [c8State, c8Entry]⟩,
    c8_expired_get_purges_both_tiers c8State 7200 "k" c8Entry c8Entry rfl
      (by simp [c8State]) (by simp [c8State])
      (by norm_num [c8State, c8Entry]) (by norm_num [c8State, c8Entry])⟩

end AiTranscribe
